import Mathlib

/-!
# Shallow embedding of `flight_logger.py`

This file embeds the core logic of the flight-logger program: datetime
parsing (`parse_datetime`, a faithful model of CPython's
`datetime.strptime` with format `%Y-%m-%d %H:%M`), duration computation
with midnight rollover (`calc_duration_hours`), overlap detection
(`detect_overlap`), CSV reading with corruption recovery
(`read_flights_df`), and the record operation (`add_flight_record`).

Modelling decisions:
* Instants are total minutes (`Nat`): `1440 * dayNumber + 60 * hour + minute`,
  with `dayNumber` the proleptic-Gregorian day count of `civilDay`.
  Only differences and comparisons of instants matter to the program.
* Python floats are modelled as rationals (`ℚ`).  All values the program
  rounds are within a few thousand hours, where `round(x, 2)` on an IEEE
  double agrees with exact rational rounding-half-to-even (`pyRound2`):
  the inputs of every `round` call are sums of exactly-2-decimal values and
  of `m/60` for integer minutes `m`, none of which sit close enough to a
  rounding boundary for the binary representation error to matter.
* CPython `strptime` compiles `%Y-%m-%d %H:%M` to the anchored regex
  `(\d\d\d\d)-(1[0-2]|0[1-9]|[1-9])-(3[01]|[12]\d|0[1-9]|[1-9])
   (2[0-3]|[0-1]\d|\d):([0-5]\d|\d)` and then rejects leftover input and
  invalid calendar dates when constructing the `datetime`.  Because every
  two-character alternative of a field consumes a digit while the
  one-character fallback must be followed by a non-digit delimiter (or the
  end of input), regex backtracking never changes the outcome, and the
  greedy two-then-one digit reader `readField` below is exactly equivalent.
  Digits are modelled as ASCII digits and `str.strip` as removal of ASCII
  whitespace; error details are abbreviated (claims never pin them down).
* The filesystem is a map from path key (the normalised tail number, the
  directory name used by `aircraft_folder`) to an optional file content,
  where content is either a well-formed table of rows or a malformed file
  (`pd.read_csv` raising).  Exceptions escaping a modelled function are an
  `Except.error` / `Option.none` at its result type.
-/

deriving instance DecidableEq for Except

namespace FlightLogger

/-- ASCII digit test, the `\d` of the `strptime` regex on ASCII input. -/
def isDig (c : Char) : Bool := 48 ≤ c.toNat && c.toNat ≤ 57

/-- Numeric value of an ASCII digit character. -/
def digitVal (c : Char) : Nat := c.toNat - 48

/-- ASCII whitespace, what Python's `str.strip` removes (on ASCII input). -/
def isPySpace (c : Char) : Bool :=
  c == ' ' || c == '\t' || c == '\n' || c == '\r' ||
  c == Char.ofNat 11 || c == Char.ofNat 12

/-- Python `str.strip`: drop leading and trailing whitespace. -/
def pyStripL (l : List Char) : List Char :=
  ((l.dropWhile isPySpace).reverse.dropWhile isPySpace).reverse

/-- ASCII uppercase of one character (Python `str.upper` on ASCII input). -/
def asciiUpper (c : Char) : Char :=
  if 97 ≤ c.toNat ∧ c.toNat ≤ 122 then Char.ofNat (c.toNat - 32) else c

/-- `tail_number.strip().upper()`, the normalisation used for both the
storage key (`aircraft_folder`) and the stored tail number. -/
def pyNormTail (s : String) : String :=
  String.mk ((pyStripL s.data).map asciiUpper)

/-- Read exactly four digits (the `%Y` field of the regex). -/
def readYear : List Char → Option (Nat × List Char)
  | a :: b :: c :: d :: rest =>
    if isDig a ∧ isDig b ∧ isDig c ∧ isDig d then
      some (1000 * digitVal a + 100 * digitVal b + 10 * digitVal c + digitVal d, rest)
    else none
  | _ => none

/-- Read a one-or-two digit numeric field.  A two-digit read requires the
value to lie in `[lo, hi]` (the union of the regex's two-character
alternatives); otherwise a single digit with value in `[oneLo, oneHi]`
(the one-character alternative) is read. -/
def readField (lo hi oneLo oneHi : Nat) : List Char → Option (Nat × List Char)
  | c1 :: c2 :: rest =>
    if isDig c1 ∧ isDig c2 ∧ lo ≤ 10 * digitVal c1 + digitVal c2 ∧
        10 * digitVal c1 + digitVal c2 ≤ hi then
      some (10 * digitVal c1 + digitVal c2, rest)
    else if isDig c1 ∧ oneLo ≤ digitVal c1 ∧ digitVal c1 ≤ oneHi then
      some (digitVal c1, c2 :: rest)
    else none
  | [c1] =>
    if isDig c1 ∧ oneLo ≤ digitVal c1 ∧ digitVal c1 ≤ oneHi then
      some (digitVal c1, [])
    else none
  | [] => none

/-- Expect one literal character. -/
def expectChar (ch : Char) : List Char → Option (List Char)
  | c :: rest => if c = ch then some rest else none
  | [] => none

/-- The `strptime` pattern `%Y-%m-%d %H:%M` on the combined character list,
including the no-leftover-input check. -/
def parseCombinedL (cs : List Char) : Option (Nat × Nat × Nat × Nat × Nat) :=
  match readYear cs with
  | none => none
  | some (y, cs) =>
  match expectChar '-' cs with
  | none => none
  | some cs =>
  match readField 1 12 1 9 cs with
  | none => none
  | some (mo, cs) =>
  match expectChar '-' cs with
  | none => none
  | some cs =>
  match readField 1 31 1 9 cs with
  | none => none
  | some (da, cs) =>
  match expectChar ' ' cs with
  | none => none
  | some cs =>
  match readField 0 23 0 9 cs with
  | none => none
  | some (h, cs) =>
  match expectChar ':' cs with
  | none => none
  | some cs =>
  match readField 0 59 0 9 cs with
  | none => none
  | some (mi, cs) =>
  if cs.isEmpty then some (y, mo, da, h, mi) else none

/-- Proleptic-Gregorian leap-year rule (Python `calendar`/`datetime`). -/
def isLeap (y : Nat) : Bool := y % 4 = 0 && (y % 100 ≠ 0 || y % 400 = 0)

/-- Length of a month, as validated by the `datetime` constructor. -/
def daysInMonth (y m : Nat) : Nat :=
  match m with
  | 2 => if isLeap y then 29 else 28
  | 4 => 30
  | 6 => 30
  | 9 => 30
  | 11 => 30
  | _ => 31

/-- Days from a fixed origin before the first day of month `m` of year `y`. -/
def daysBeforeMonth (y m : Nat) : Nat :=
  let base : Nat :=
    match m with
    | 1 => 0 | 2 => 31 | 3 => 59 | 4 => 90 | 5 => 120 | 6 => 151
    | 7 => 181 | 8 => 212 | 9 => 243 | 10 => 273 | 11 => 304 | _ => 334
  if 3 ≤ m ∧ isLeap y then base + 1 else base

/-- Proleptic-Gregorian day number of a civil date (day 0 = 0001-01-01). -/
def civilDay (y m d : Nat) : Nat :=
  365 * (y - 1) + ((y - 1) / 4 - (y - 1) / 100) + (y - 1) / 400 +
    daysBeforeMonth y m + (d - 1)

/-- `parse_datetime(date_str, time_str)` (flight_logger.py line 63):
`datetime.strptime(f"{date_str.strip()} {time_str.strip()}", "%Y-%m-%d %H:%M")`,
returning the instant in minutes, or the raised `ValueError` text
(abbreviated).  The `datetime` constructor validates year ≥ 1 and the day
against the month length. -/
def parse_datetime (date time : String) : Except String Nat :=
  let combined := pyStripL date.data ++ ' ' :: pyStripL time.data
  match parseCombinedL combined with
  | none =>
    .error ("time data " ++ String.mk combined ++
      " does not match format %Y-%m-%d %H:%M")
  | some (y, mo, da, h, mi) =>
    if y = 0 then .error "year 0 is out of range"
    else if daysInMonth y mo < da then .error "day is out of range for month"
    else .ok (1440 * civilDay y mo da + 60 * h + mi)

/-- Integer chosen by Python's `round(q, 2)`: round half to even on `100*q`. -/
def round2Int (q : ℚ) : ℤ :=
  let s := q * 100
  let f := ⌊s⌋
  let r := s - (f : ℚ)
  if r < 1 / 2 then f
  else if 1 / 2 < r then f + 1
  else if f % 2 = 0 then f else f + 1

/-- Python `round(q, 2)` as a rational operation. -/
def pyRound2 (q : ℚ) : ℚ := (round2Int q : ℚ) / 100

/-- The midnight rollover (lines 72-74, 90-91 and 98-99): add one day to
the end instant when it is strictly earlier than the start instant. -/
def rolloverEnd (s e : ℕ) : ℕ := if e < s then e + 1440 else e

/-- `calc_duration_hours` (lines 68-78): parse both instants on the same
date, roll the landing over by one day when it is strictly earlier than
the takeoff, and return `round(seconds/3600, 2)` hours. -/
def calc_duration_hours (date takeoff landing : String) : Except String ℚ :=
  match parse_datetime date takeoff with
  | .error e => .error e
  | .ok t1 =>
    match parse_datetime date landing with
    | .error e => .error e
    | .ok t2 => .ok (pyRound2 (((rolloverEnd t1 t2 - t1 : ℕ) : ℚ) / 60))

/-- One CSV row of a ledger file, with the columns written by
`add_flight_record`. -/
structure Entry where
  date : String
  tailNumber : String
  takeoffTime : String
  landingTime : String
  durationHours : ℚ
  landingsThisFlight : ℤ
  totalHoursAfter : ℚ
  totalLandingsAfter : ℤ
deriving DecidableEq

/-- Content of a `flights.csv` file: a readable table, or a file on which
`pd.read_csv` raises. -/
inductive FileContent where
  | malformed : FileContent
  | table : List Entry → FileContent
deriving DecidableEq

/-- The filesystem: path key (normalised tail number) to optional file. -/
def FS : Type := String → Option FileContent

/-- The filesystem with no ledger files. -/
def emptyFS : FS := fun _ => none

/-- Rows recovered from an optional file: a missing file or a file on which
`pd.read_csv` raises both yield the empty table. -/
def contentRows : Option FileContent → List Entry
  | some (.table l) => l
  | _ => []

/-- `read_flights_df(tail_number)` (lines 40-55): read the CSV under the
normalised tail's folder; on a missing or unreadable file return the empty
(fresh-columns) table. -/
def read_flights_df (fs : FS) (tail : String) : List Entry :=
  contentRows (fs (pyNormTail tail))

/-- `write_flights_df(tail_number, df)` (lines 58-60): replace the file. -/
def write_flights_df (fs : FS) (tail : String) (rows : List Entry) : FS :=
  fun k => if k = pyNormTail tail then some (.table rows) else fs k

/-- The interval an existing row contributes to the overlap scan
(lines 95-99): re-parse its stored date and times and apply the rollover;
`none` models the swallowed per-row exception (the row is skipped). -/
def rowInterval (r : Entry) : Option (Nat × Nat) :=
  match parse_datetime r.date r.takeoffTime, parse_datetime r.date r.landingTime with
  | .ok s, .ok e => some (s, rolloverEnd s e)
  | _, _ => none

/-- The per-row overlap test of line 104: the strict open-interval
intersection test against the row's reconstructed interval; an unparsable
row never triggers it (lines 100-101). -/
def overlapHit (ns ne : ℕ) (r : Entry) : Bool :=
  match rowInterval r with
  | some (es, ee) => decide (ns < ee ∧ ne > es)
  | none => false

/-- `detect_overlap` (lines 81-106).  Returns `none` when the new
interval's parse raises out of the function (which its caller never
triggers); note the empty-ledger early return precedes that parse. -/
def detect_overlap (fs : FS) (tail date takeoff landing : String) : Option Bool :=
  let df := read_flights_df fs tail
  if df = [] then some false
  else
    match parse_datetime date takeoff, parse_datetime date landing with
    | .ok s0, .ok e0 => some (df.any (overlapHit s0 (rolloverEnd s0 e0)))
    | _, _ => none

/-- Lines 129-134: the previous running total of hours - `0.0` on an empty
ledger, else the `Total Hours After Flight` of the positional last row. -/
def prev_hours (df : List Entry) : ℚ :=
  match df.getLast? with
  | none => 0
  | some e => e.totalHoursAfter

/-- Lines 129-135: the previous running total of landings - `0` on an
empty ledger, else the `Total Landings After Flight` of the last row. -/
def prev_landings (df : List Entry) : ℤ :=
  match df.getLast? with
  | none => 0
  | some e => e.totalLandingsAfter

/-- `add_flight_record` (lines 112-153).  `none` models an exception
escaping the function (never reachable, since `detect_overlap` is only
called after `calc_duration_hours` parsed the same strings). -/
def add_flight_record (fs : FS) (date_str tail takeoff landing : String)
    (landings_this : ℤ) : Option ((Bool × String) × FS) :=
  let tailN := pyNormTail tail
  if tailN.data = [] then some ((false, "Tail number required."), fs)
  else
    match calc_duration_hours date_str takeoff landing with
    | .error e => some ((false, "Date/time parse error: " ++ e), fs)
    | .ok duration =>
      match detect_overlap fs tailN date_str takeoff landing with
      | none => none
      | some true => some ((false, "Overlap detected with existing flight."), fs)
      | some false =>
        let df := read_flights_df fs tailN
        let row : Entry :=
          ⟨date_str, tailN, takeoff, landing, duration, landings_this,
            pyRound2 (prev_hours df + duration), prev_landings df + landings_this⟩
        some ((true, "Flight added successfully."),
          write_flights_df fs tailN (df ++ [row]))

/-- One request to the record operation. -/
structure Request where
  date : String
  tail : String
  takeoff : String
  landing : String
  landings : ℤ
deriving DecidableEq

/-- Run a sequence of record calls, collecting each call's success flag. -/
def runRecords : FS → List Request → Option (List Bool × FS)
  | fs, [] => some ([], fs)
  | fs, r :: rest =>
    match add_flight_record fs r.date r.tail r.takeoff r.landing r.landings with
    | none => none
    | some (res, fs1) =>
      match runRecords fs1 rest with
      | none => none
      | some (flags, fs2) => some (res.1 :: flags, fs2)

/-- The spec's fixed input format, read off its words: 4-digit year,
2-digit month and day, 24-hour `HH:MM`; month in 01-12, day in 01-31,
hour in 00-23, minute in 00-59.  Returns the five field values. -/
def specFieldsL : List Char → List Char → Option (Nat × Nat × Nat × Nat × Nat)
  | [y1, y2, y3, y4, s1, m1, m2, s2, d1, d2], [h1, h2, s3, n1, n2] =>
    if s1 = '-' ∧ s2 = '-' ∧ s3 = ':' ∧
        isDig y1 ∧ isDig y2 ∧ isDig y3 ∧ isDig y4 ∧
        isDig m1 ∧ isDig m2 ∧ isDig d1 ∧ isDig d2 ∧
        isDig h1 ∧ isDig h2 ∧ isDig n1 ∧ isDig n2 ∧
        1 ≤ 10 * digitVal m1 + digitVal m2 ∧ 10 * digitVal m1 + digitVal m2 ≤ 12 ∧
        1 ≤ 10 * digitVal d1 + digitVal d2 ∧ 10 * digitVal d1 + digitVal d2 ≤ 31 ∧
        10 * digitVal h1 + digitVal h2 ≤ 23 ∧ 10 * digitVal n1 + digitVal n2 ≤ 59 then
      some (1000 * digitVal y1 + 100 * digitVal y2 + 10 * digitVal y3 + digitVal y4,
        10 * digitVal m1 + digitVal m2, 10 * digitVal d1 + digitVal d2,
        10 * digitVal h1 + digitVal h2, 10 * digitVal n1 + digitVal n2)
    else none
  | _, _ => none

/-- Modelled from the spec ("fixed format"): whether a date/time input pair
matches the spec's fixed format. -/
def specFixedFormat (date time : String) : Bool :=
  (specFieldsL date.data time.data).isSome

/-- Success test for the parser's result. -/
def isOkB : Except String Nat → Bool
  | .ok _ => true
  | .error _ => false

/-! ## Concrete fixtures used by witnesses and counterexamples -/

/-- A stored entry for `N123AB`: 2024-01-01, 10:00-12:00, one landing. -/
def entryC5 : Entry := ⟨"2024-01-01", "N123AB", "10:00", "12:00", 2, 1, 2, 1⟩

/-- A store with one malformed ledger and one well-formed ledger. -/
def fsC5 : FS := fun t =>
  if t = "BAD" then some .malformed
  else if t = "N123AB" then some (.table [entryC5]) else none

/-- A store whose only ledger for `N123AB` holds the 10:00-12:00 flight. -/
def fsOne : FS := fun t =>
  if t = "N123AB" then some (.table [entryC5]) else none

/-- A store whose ledger for `N9` holds an overnight flight
2024-01-01 23:30 - 00:30 (landing rolled over to 2024-01-02). -/
def fsNight : FS := fun t =>
  if t = "N9" then some (.table [⟨"2024-01-01", "N9", "23:30", "00:30", 1, 1, 1, 1⟩])
  else none

/-- A store whose ledger for `N9` holds a 2024-01-02 00:00 - 01:00 flight. -/
def fsMorning : FS := fun t =>
  if t = "N9" then some (.table [⟨"2024-01-02", "N9", "00:00", "01:00", 1, 1, 1, 1⟩])
  else none

/-- The record call of the C8 counterexample: zero landings. -/
def c8Run : Option ((Bool × String) × FS) :=
  add_flight_record emptyFS "2024-01-01" "N123AB" "10:00" "11:00" 0

/-- The store after one successful zero-duration record on a fresh store. -/
def c9fs1 : FS :=
  ((add_flight_record emptyFS "2024-03-03" "N1" "08:00" "08:00" 1).getD
    ((false, ""), emptyFS)).2

/-- Two successful record calls for the C3 witness. -/
def c3reqs : List Request :=
  [⟨"2024-01-01", "n123ab", "10:00", "11:30", 1⟩,
   ⟨"2024-01-01", "N123AB", "12:00", "13:00", 2⟩]

/-- The store after running the C3 witness requests. -/
def c3fs : FS := ((runRecords emptyFS c3reqs).getD ([], emptyFS)).2

/-- A rational with at most two decimal places. -/
def cent (q : ℚ) : Prop := ∃ n : ℤ, q = (n : ℚ) / 100

/-- The running total of hours after the positional last entry, with the
given default for an empty ledger (`prev_hours` is the 0-default case). -/
def lastHours (pd : ℚ) : List Entry → ℚ
  | [] => pd
  | e :: rest => lastHours e.totalHoursAfter rest

/-- The running total of landings after the positional last entry. -/
def lastLandings (pc : ℤ) : List Entry → ℤ
  | [] => pc
  | e :: rest => lastLandings e.totalLandingsAfter rest

/-- The spec's running-totals chain invariant: starting from previous
totals `pd` and `pc`, every entry stores
`round(previous_duration + duration, 2)` and
`previous_count + event_count`, each entry serving as the previous one
for its successor. -/
def chainB : ℚ → ℤ → List Entry → Bool
  | _, _, [] => true
  | pd, pc, e :: rest =>
    decide (e.totalHoursAfter = pyRound2 (pd + e.durationHours)) &&
    decide (e.totalLandingsAfter = pc + e.landingsThisFlight) &&
    chainB e.totalHoursAfter e.totalLandingsAfter rest

/-- A ledger reachable by record calls: chain-consistent from zero totals,
with every stored duration an exactly-2-decimal rational. -/
def ledgerOK (l : List Entry) : Prop :=
  chainB 0 0 l = true ∧ ∀ e ∈ l, cent e.durationHours

/-- Every ledger in the store is reachable-shaped. -/
def InvFS (fs : FS) : Prop := ∀ k, ledgerOK (contentRows (fs k))

/-! ## Helper lemmas about rounding -/

theorem cent_pyRound2 (q : ℚ) : cent (pyRound2 q) := ⟨round2Int q, rfl⟩

theorem cent_zero : cent 0 := ⟨0, by norm_num⟩

theorem cent_add {a b : ℚ} (ha : cent a) (hb : cent b) : cent (a + b) := by
  obtain ⟨m, rfl⟩ := ha
  obtain ⟨n, rfl⟩ := hb
  exact ⟨m + n, by push_cast; ring⟩

theorem pyRound2_cent_eq {q : ℚ} (h : cent q) : pyRound2 q = q := by
  obtain ⟨n, rfl⟩ := h
  have h100 : ((n : ℚ) / 100) * 100 = (n : ℚ) := by field_simp
  simp only [pyRound2, round2Int, h100, Int.floor_intCast, sub_self]
  norm_num

theorem pyRound2_zero : pyRound2 0 = 0 := pyRound2_cent_eq cent_zero

/-! ## Helper lemmas about parsing and overlap detection -/

theorem calc_ok_parse {date takeoff landing : String} {d : ℚ}
    (h : calc_duration_hours date takeoff landing = .ok d) :
    ∃ s e, parse_datetime date takeoff = .ok s ∧
      parse_datetime date landing = .ok e ∧
      d = pyRound2 (((rolloverEnd s e - s : ℕ) : ℚ) / 60) := by
  unfold calc_duration_hours at h
  cases hs : parse_datetime date takeoff with
  | error e1 => rw [hs] at h; exact Except.noConfusion h
  | ok s =>
    cases he : parse_datetime date landing with
    | error e2 => rw [hs, he] at h; exact Except.noConfusion h
    | ok e =>
      rw [hs, he] at h
      simp only [Except.ok.injEq] at h
      exact ⟨s, e, rfl, rfl, h.symm⟩

theorem detect_overlap_empty (fs : FS) (tail date takeoff landing : String)
    (h : read_flights_df fs tail = []) :
    detect_overlap fs tail date takeoff landing = some false := by
  simp [detect_overlap, h]

theorem detect_overlap_parsed (fs : FS) (tail date takeoff landing : String)
    {s0 e0 : ℕ} (hs : parse_datetime date takeoff = .ok s0)
    (he : parse_datetime date landing = .ok e0) :
    detect_overlap fs tail date takeoff landing =
      some ((read_flights_df fs tail).any (overlapHit s0 (rolloverEnd s0 e0))) := by
  by_cases h : read_flights_df fs tail = []
  · rw [detect_overlap_empty fs tail date takeoff landing h, h]
    simp
  · simp only [detect_overlap, if_neg h, hs, he]

theorem overlapHit_eq_true {ns ne : ℕ} {r : Entry} :
    overlapHit ns ne r = true ↔
      ∃ es ee, rowInterval r = some (es, ee) ∧ ns < ee ∧ ne > es := by
  unfold overlapHit
  cases h : rowInterval r with
  | none => simp
  | some p =>
    obtain ⟨es, ee⟩ := p
    simp only [decide_eq_true_eq, Option.some.injEq, Prod.mk.injEq]
    exact ⟨fun hh => ⟨es, ee, ⟨rfl, rfl⟩, hh⟩,
      by rintro ⟨es1, ee1, ⟨rfl, rfl⟩, hh⟩; exact hh⟩

theorem read_flights_write_self (fs : FS) (t : String) (rows : List Entry) :
    read_flights_df (write_flights_df fs t rows) t = rows := by
  simp [read_flights_df, write_flights_df, contentRows]

/-- A rejected `add_flight_record` call returns the store unchanged: the
only write happens on the success path. -/
theorem add_fail_state {fs : FS} {date tail takeoff landing : String} {n : ℤ}
    {msg : String} {fs' : FS}
    (h : add_flight_record fs date tail takeoff landing n = some ((false, msg), fs')) :
    fs' = fs := by
  simp only [add_flight_record] at h
  split at h
  · simp only [Option.some.injEq, Prod.mk.injEq] at h
    exact h.2.symm
  · split at h
    · simp only [Option.some.injEq, Prod.mk.injEq] at h
      exact h.2.symm
    · split at h
      · exact Option.noConfusion h
      · simp only [Option.some.injEq, Prod.mk.injEq] at h
        exact h.2.symm
      · simp at h

/-- What a successful `add_flight_record` call implies: the tail was
non-empty, parsing succeeded, no overlap was found, and the new store
holds the old rows plus the one new row. -/
theorem add_success_elim {fs : FS} {date tail takeoff landing : String} {n : ℤ}
    {m : String} {fs' : FS}
    (h : add_flight_record fs date tail takeoff landing n = some ((true, m), fs')) :
    ∃ d, (pyNormTail tail).data ≠ [] ∧
      calc_duration_hours date takeoff landing = .ok d ∧
      detect_overlap fs (pyNormTail tail) date takeoff landing = some false ∧
      m = "Flight added successfully." ∧
      fs' = write_flights_df fs (pyNormTail tail)
        (read_flights_df fs (pyNormTail tail) ++
          [⟨date, pyNormTail tail, takeoff, landing, d, n,
            pyRound2 (prev_hours (read_flights_df fs (pyNormTail tail)) + d),
            prev_landings (read_flights_df fs (pyNormTail tail)) + n⟩]) := by
  simp only [add_flight_record] at h
  by_cases hne : (pyNormTail tail).data = []
  · rw [if_pos hne] at h
    simp at h
  · rw [if_neg hne] at h
    cases hcalc : calc_duration_hours date takeoff landing with
    | error e =>
      rw [hcalc] at h
      simp at h
    | ok d =>
      rw [hcalc] at h
      cases hdet : detect_overlap fs (pyNormTail tail) date takeoff landing with
      | none =>
        rw [hdet] at h
        exact Option.noConfusion h
      | some b =>
        rw [hdet] at h
        cases b with
        | true => simp at h
        | false =>
          simp only [Option.some.injEq, Prod.mk.injEq, true_and] at h
          exact ⟨d, hne, rfl, rfl, h.1.symm, h.2.symm⟩

/-! ## The running-totals chain invariant -/

theorem lastHours_cons (pd : ℚ) (a : Entry) (l : List Entry) :
    lastHours pd (a :: l) = lastHours a.totalHoursAfter l := rfl

theorem lastLandings_cons (pc : ℤ) (a : Entry) (l : List Entry) :
    lastLandings pc (a :: l) = lastLandings a.totalLandingsAfter l := rfl

theorem lastHours_irrel (pd pd' : ℚ) (a : Entry) (l : List Entry) :
    lastHours pd (a :: l) = lastHours pd' (a :: l) := rfl

theorem prev_hours_eq (l : List Entry) : prev_hours l = lastHours 0 l := by
  induction l with
  | nil => rfl
  | cons a t ih =>
    cases t with
    | nil => simp [prev_hours, lastHours]
    | cons b u =>
      have h1 : prev_hours (a :: b :: u) = prev_hours (b :: u) := by
        simp [prev_hours, List.getLast?_cons_cons]
      rw [h1, ih]
      rfl

theorem prev_landings_eq (l : List Entry) : prev_landings l = lastLandings 0 l := by
  induction l with
  | nil => rfl
  | cons a t ih =>
    cases t with
    | nil => simp [prev_landings, lastLandings]
    | cons b u =>
      have h1 : prev_landings (a :: b :: u) = prev_landings (b :: u) := by
        simp [prev_landings, List.getLast?_cons_cons]
      rw [h1, ih]
      rfl

theorem chainB_append_one {pd : ℚ} {pc : ℤ} {l : List Entry} {e : Entry}
    (h : chainB pd pc l = true)
    (h1 : e.totalHoursAfter = pyRound2 (lastHours pd l + e.durationHours))
    (h2 : e.totalLandingsAfter = lastLandings pc l + e.landingsThisFlight) :
    chainB pd pc (l ++ [e]) = true := by
  induction l generalizing pd pc with
  | nil =>
    have hH : lastHours pd [] = pd := rfl
    have hL : lastLandings pc [] = pc := rfl
    rw [hH] at h1
    rw [hL] at h2
    simp [chainB, h1, h2]
  | cons a t ih =>
    simp only [chainB, Bool.and_eq_true, decide_eq_true_eq] at h
    obtain ⟨⟨ha1, ha2⟩, ht⟩ := h
    rw [lastHours_cons] at h1
    rw [lastLandings_cons] at h2
    have hrec := ih ht h1 h2
    simp only [List.cons_append, chainB, Bool.and_eq_true, decide_eq_true_eq]
    exact ⟨⟨ha1, ha2⟩, hrec⟩

theorem chainB_sums {l : List Entry} {pd : ℚ} {pc : ℤ}
    (h : chainB pd pc l = true) (hpd : cent pd)
    (hdur : ∀ e ∈ l, cent e.durationHours) :
    lastHours pd l = pd + (l.map Entry.durationHours).sum ∧
    lastLandings pc l = pc + (l.map Entry.landingsThisFlight).sum ∧
    cent (lastHours pd l) := by
  induction l generalizing pd pc with
  | nil => exact ⟨by simp [lastHours], by simp [lastLandings], hpd⟩
  | cons a t ih =>
    simp only [chainB, Bool.and_eq_true, decide_eq_true_eq] at h
    obtain ⟨⟨ha1, ha2⟩, ht⟩ := h
    have hda : cent a.durationHours := hdur a (List.mem_cons_self a t)
    have haH : a.totalHoursAfter = pd + a.durationHours := by
      rw [ha1, pyRound2_cent_eq (cent_add hpd hda)]
    have hcentH : cent a.totalHoursAfter := by
      rw [haH]
      exact cent_add hpd hda
    have ihh := ih ht hcentH (fun e he => hdur e (List.mem_cons_of_mem a he))
    refine ⟨?_, ?_, ?_⟩
    · rw [lastHours_cons, ihh.1, haH]
      simp only [List.map_cons, List.sum_cons]
      ring
    · rw [lastLandings_cons, ihh.2.1, ha2]
      simp only [List.map_cons, List.sum_cons]
      ring
    · rw [lastHours_cons]
      exact ihh.2.2

theorem cent_list_sum {l : List Entry} (h : ∀ e ∈ l, cent e.durationHours) :
    cent ((l.map Entry.durationHours).sum) := by
  induction l with
  | nil => simpa using cent_zero
  | cons a t ih =>
    simp only [List.map_cons, List.sum_cons]
    exact cent_add (h a (List.mem_cons_self a t))
      (ih fun e he => h e (List.mem_cons_of_mem a he))

theorem invFS_empty : InvFS emptyFS := by
  intro k
  exact ⟨rfl, by simp [contentRows, emptyFS]⟩

theorem invFS_step {fs : FS} {date tail takeoff landing : String} {n : ℤ}
    {res : Bool × String} {fs' : FS}
    (h : add_flight_record fs date tail takeoff landing n = some (res, fs'))
    (hinv : InvFS fs) : InvFS fs' := by
  obtain ⟨b, msg⟩ := res
  cases b with
  | false =>
    rw [add_fail_state h]
    exact hinv
  | true =>
    obtain ⟨d, hne, hcalc, hdet, hm, hfs⟩ := add_success_elim h
    obtain ⟨s, e, hps, hpe, hd⟩ := calc_ok_parse hcalc
    have hcd : cent d := by
      rw [hd]
      exact cent_pyRound2 _
    subst hfs
    intro k
    simp only [write_flights_df]
    by_cases hk : k = pyNormTail (pyNormTail tail)
    · rw [if_pos hk]
      have hold : ledgerOK (read_flights_df fs (pyNormTail tail)) :=
        hinv (pyNormTail (pyNormTail tail))
      refine ⟨chainB_append_one hold.1 ?_ ?_, ?_⟩
      · rw [← prev_hours_eq]
      · rw [← prev_landings_eq]
      · intro x hx
        rcases List.mem_append.mp hx with hx | hx
        · exact hold.2 x hx
        · rw [List.mem_singleton.mp hx]
          exact hcd
    · rw [if_neg hk]
      exact hinv k

theorem runRecords_inv {reqs : List Request} :
    ∀ {fs : FS} {flags : List Bool} {fsF : FS},
      runRecords fs reqs = some (flags, fsF) → InvFS fs → InvFS fsF := by
  induction reqs with
  | nil =>
    intro fs flags fsF h hinv
    simp only [runRecords, Option.some.injEq, Prod.mk.injEq] at h
    rw [← h.2]
    exact hinv
  | cons r rest ih =>
    intro fs flags fsF h hinv
    simp only [runRecords] at h
    cases hadd : add_flight_record fs r.date r.tail r.takeoff r.landing r.landings with
    | none =>
      rw [hadd] at h
      exact Option.noConfusion h
    | some p =>
      obtain ⟨res, fs1⟩ := p
      rw [hadd] at h
      have h2 : (match runRecords fs1 rest with
        | none => none
        | some (flags, fs2) => some (res.1 :: flags, fs2)) = some (flags, fsF) := h
      cases hrun : runRecords fs1 rest with
      | none =>
        rw [hrun] at h2
        exact Option.noConfusion h2
      | some q =>
        obtain ⟨flags2, fs2⟩ := q
        rw [hrun] at h2
        simp only [Option.some.injEq, Prod.mk.injEq] at h2
        rw [← h2.2]
        exact ih hrun (invFS_step hadd hinv)

/-! ## Parsing-format lemmas -/

theorem isDig_not_space {c : Char} (h : isDig c = true) : isPySpace c = false := by
  by_contra hcon
  rw [Bool.not_eq_false] at hcon
  simp only [isPySpace, Bool.or_eq_true, beq_iff_eq] at hcon
  rcases hcon with ((((h1 | h1) | h1) | h1) | h1) | h1 <;> subst h1 <;>
    exact absurd h (by decide)

theorem dropWhile_eq_self_of_all {l : List Char} (h : ∀ c ∈ l, isPySpace c = false) :
    l.dropWhile isPySpace = l := by
  cases l with
  | nil => rfl
  | cons a t => simp [List.dropWhile_cons, h a (List.mem_cons_self a t)]

theorem pyStripL_eq_self {l : List Char} (h : ∀ c ∈ l, isPySpace c = false) :
    pyStripL l = l := by
  unfold pyStripL
  rw [dropWhile_eq_self_of_all h,
    dropWhile_eq_self_of_all (fun c hc => h c (List.mem_reverse.mp hc)),
    List.reverse_reverse]

theorem readYear_digits {a b c d : Char} {rest : List Char}
    (ha : isDig a = true) (hb : isDig b = true) (hc : isDig c = true)
    (hd : isDig d = true) :
    readYear (a :: b :: c :: d :: rest) =
      some (1000 * digitVal a + 100 * digitVal b + 10 * digitVal c + digitVal d, rest) := by
  simp [readYear, ha, hb, hc, hd]

theorem expectChar_eq (c : Char) (rest : List Char) :
    expectChar c (c :: rest) = some rest := by
  simp [expectChar]

theorem readField_two {c1 c2 : Char} {rest : List Char} {lo hi oneLo oneHi : Nat}
    (h1 : isDig c1 = true) (h2 : isDig c2 = true)
    (hlo : lo ≤ 10 * digitVal c1 + digitVal c2)
    (hhi : 10 * digitVal c1 + digitVal c2 ≤ hi) :
    readField lo hi oneLo oneHi (c1 :: c2 :: rest) =
      some (10 * digitVal c1 + digitVal c2, rest) := by
  simp [readField, h1, h2, hlo, hhi]

theorem cons_getLast?_of_ne_nil {x : Char} {l : List Char} (h : l ≠ []) :
    (x :: l).getLast? = l.getLast? := by
  cases l with
  | nil => exact absurd rfl h
  | cons a t => exact List.getLast?_cons_cons

theorem getLast?_append_single (l : List Char) (a : Char) :
    (l ++ [a]).getLast? = some a := by
  induction l with
  | nil => rfl
  | cons x t ih => rw [List.cons_append, cons_getLast?_of_ne_nil (by simp), ih]

theorem readField_ne_nil {lo hi a b : Nat} {cs : List Char} {p : Nat × List Char}
    (h : readField lo hi a b cs = some p) : cs ≠ [] := by
  intro hcs
  subst hcs
  exact Option.noConfusion h

theorem readField_last_of_nil {lo hi a b : Nat} {cs : List Char} {v : Nat}
    (h : readField lo hi a b cs = some (v, [])) :
    ∃ c, cs.getLast? = some c ∧ isDig c = true := by
  unfold readField at h
  split at h
  · next c1 c2 rest =>
    split at h
    · next hc =>
      simp only [Option.some.injEq, Prod.mk.injEq] at h
      refine ⟨c2, ?_, hc.2.1⟩
      rw [h.2]
      simp
    · split at h
      · simp only [Option.some.injEq, Prod.mk.injEq] at h
        exact absurd h.2 (by simp)
      · exact Option.noConfusion h
  · next c1 =>
    split at h
    · next hc =>
      exact ⟨c1, by simp, hc.1⟩
    · exact Option.noConfusion h
  · exact Option.noConfusion h

theorem readField_rest_last {lo hi a b : Nat} {cs rest : List Char} {v : Nat}
    (h : readField lo hi a b cs = some (v, rest)) (hne : rest ≠ []) :
    cs.getLast? = rest.getLast? := by
  unfold readField at h
  split at h
  · next c1 c2 rest0 =>
    split at h
    · simp only [Option.some.injEq, Prod.mk.injEq] at h
      rw [← h.2] at hne ⊢
      rw [List.getLast?_cons_cons, cons_getLast?_of_ne_nil hne]
    · split at h
      · simp only [Option.some.injEq, Prod.mk.injEq] at h
        rw [← h.2]
        exact List.getLast?_cons_cons
      · exact Option.noConfusion h
  · next c1 =>
    split at h
    · simp only [Option.some.injEq, Prod.mk.injEq] at h
      exact absurd h.2.symm hne
    · exact Option.noConfusion h
  · exact Option.noConfusion h

theorem readYear_rest_last {cs rest : List Char} {v : Nat}
    (h : readYear cs = some (v, rest)) (hne : rest ≠ []) :
    cs.getLast? = rest.getLast? := by
  unfold readYear at h
  split at h
  · next a b c d rest0 =>
    split at h
    · simp only [Option.some.injEq, Prod.mk.injEq] at h
      rw [← h.2] at hne ⊢
      rw [List.getLast?_cons_cons, List.getLast?_cons_cons, List.getLast?_cons_cons,
        cons_getLast?_of_ne_nil hne]
    · exact Option.noConfusion h
  · exact Option.noConfusion h

theorem expectChar_rest {ch : Char} {cs rest : List Char}
    (h : expectChar ch cs = some rest) : cs = ch :: rest := by
  unfold expectChar at h
  split at h
  · next c rest0 =>
    split at h
    · next hc =>
      subst hc
      simp only [Option.some.injEq] at h
      rw [h]
    · exact Option.noConfusion h
  · exact Option.noConfusion h

theorem parseCombinedL_some_last {cs : List Char} {r : Nat × Nat × Nat × Nat × Nat}
    (h : parseCombinedL cs = some r) :
    ∃ c, cs.getLast? = some c ∧ isDig c = true := by
  unfold parseCombinedL at h
  split at h
  · exact Option.noConfusion h
  next y cs1 heq1 =>
  split at h
  · exact Option.noConfusion h
  next cs2 heq2 =>
  split at h
  · exact Option.noConfusion h
  next mo cs3 heq3 =>
  split at h
  · exact Option.noConfusion h
  next cs4 heq4 =>
  split at h
  · exact Option.noConfusion h
  next da cs5 heq5 =>
  split at h
  · exact Option.noConfusion h
  next cs6 heq6 =>
  split at h
  · exact Option.noConfusion h
  next hh cs7 heq7 =>
  split at h
  · exact Option.noConfusion h
  next cs8 heq8 =>
  split at h
  · exact Option.noConfusion h
  next mi cs9 heq9 =>
  split at h
  · next hempty =>
    have hcs9 : cs9 = [] := List.isEmpty_iff.mp hempty
    subst hcs9
    obtain ⟨c, hlast8, hdig⟩ := readField_last_of_nil heq9
    have e8 : cs7.getLast? = cs8.getLast? := by
      rw [expectChar_rest heq8]
      exact cons_getLast?_of_ne_nil (readField_ne_nil heq9)
    have e7 : cs6.getLast? = cs7.getLast? :=
      readField_rest_last heq7 (by rw [expectChar_rest heq8]; simp)
    have e6 : cs5.getLast? = cs6.getLast? := by
      rw [expectChar_rest heq6]
      exact cons_getLast?_of_ne_nil (readField_ne_nil heq7)
    have e5 : cs4.getLast? = cs5.getLast? :=
      readField_rest_last heq5 (by rw [expectChar_rest heq6]; simp)
    have e4 : cs3.getLast? = cs4.getLast? := by
      rw [expectChar_rest heq4]
      exact cons_getLast?_of_ne_nil (readField_ne_nil heq5)
    have e3 : cs2.getLast? = cs3.getLast? :=
      readField_rest_last heq3 (by rw [expectChar_rest heq4]; simp)
    have e2 : cs1.getLast? = cs2.getLast? := by
      rw [expectChar_rest heq2]
      exact cons_getLast?_of_ne_nil (readField_ne_nil heq3)
    have e1 : cs.getLast? = cs1.getLast? :=
      readYear_rest_last heq1 (by rw [expectChar_rest heq2]; simp)
    exact ⟨c, by rw [e1, e2, e3, e4, e5, e6, e7, e8]; exact hlast8, hdig⟩
  · exact Option.noConfusion h

theorem readYear_not_dig {c : Char} {xs : List Char} (h : isDig c = false) :
    readYear (c :: xs) = none := by
  cases xs with
  | nil => rfl
  | cons b xs2 =>
    cases xs2 with
    | nil => rfl
    | cons c2 xs3 =>
      cases xs3 with
      | nil => rfl
      | cons d rest => simp [readYear, h]

theorem isOkB_false_iff {x : Except String Nat} :
    isOkB x = false ↔ ∃ e, x = .error e := by
  cases x <;> simp [isOkB]

theorem parse_datetime_empty_time (d t : String) (h : pyStripL t.data = []) :
    isOkB (parse_datetime d t) = false := by
  unfold parse_datetime
  rw [h]
  dsimp only
  cases hpc : parseCombinedL (pyStripL d.data ++ [' ']) with
  | none => rfl
  | some r =>
    obtain ⟨c, hlast, hdig⟩ := parseCombinedL_some_last hpc
    rw [getLast?_append_single] at hlast
    rw [← Option.some.inj hlast] at hdig
    exact absurd hdig (by decide)

theorem parse_datetime_empty_date (d t : String) (h : pyStripL d.data = []) :
    isOkB (parse_datetime d t) = false := by
  unfold parse_datetime
  rw [h, List.nil_append]
  dsimp only
  have hpc : parseCombinedL (' ' :: pyStripL t.data) = none := by
    unfold parseCombinedL
    rw [readYear_not_dig (by decide)]
  rw [hpc]
  rfl

/-! ## Claim theorems -/

/-- C5: `read_flights_df` returns the entries in on-disk order when the
backing store holds a readable table; it returns the empty sequence when
the store is missing, and also (swallowing the failure) when the store
exists but is malformed. -/
theorem read_flights_missing_or_corrupt_empty :
    ∀ (fs : FS) (tail : String),
      (fs (pyNormTail tail) = none → read_flights_df fs tail = []) ∧
      (fs (pyNormTail tail) = some .malformed → read_flights_df fs tail = []) ∧
      (∀ rows, fs (pyNormTail tail) = some (.table rows) →
        read_flights_df fs tail = rows) := by
  intro fs tail
  refine ⟨fun h => ?_, fun h => ?_, fun rows h => ?_⟩ <;>
    simp [read_flights_df, h, contentRows]

/-- C5 witness: a store with one malformed file and one table file; the
malformed file and a never-written entity both read as empty, the table
file reads back in order. -/
theorem read_flights_missing_or_corrupt_empty_witness :
    read_flights_df fsC5 "BAD" = [] ∧ read_flights_df fsC5 "N999ZZ" = [] ∧
    read_flights_df fsC5 "N123AB" = [entryC5] := by
  refine ⟨(read_flights_missing_or_corrupt_empty fsC5 "BAD").2.1 (by decide),
    (read_flights_missing_or_corrupt_empty fsC5 "N999ZZ").1 (by decide),
    (read_flights_missing_or_corrupt_empty fsC5 "N123AB").2.2 [entryC5] (by decide)⟩

/-- C4: a rejected record call returns success false and leaves the store
untouched, so a subsequent load returns exactly the same sequence; a
rejection caused by a detected overlap carries the message
"Overlap detected with existing flight.". -/
theorem rejected_call_leaves_state_unchanged :
    (∀ (fs : FS) (date tail takeoff landing : String) (n : ℤ) (msg : String) (fs' : FS),
      add_flight_record fs date tail takeoff landing n = some ((false, msg), fs') →
      fs' = fs ∧ ∀ t, read_flights_df fs' t = read_flights_df fs t) ∧
    (∀ (fs : FS) (date tail takeoff landing : String) (n : ℤ) (d : ℚ),
      (pyNormTail tail).data ≠ [] →
      calc_duration_hours date takeoff landing = .ok d →
      detect_overlap fs (pyNormTail tail) date takeoff landing = some true →
      add_flight_record fs date tail takeoff landing n =
        some ((false, "Overlap detected with existing flight."), fs)) := by
  constructor
  · intro fs date tail takeoff landing n msg fs' h
    exact ⟨add_fail_state h, fun t => by rw [add_fail_state h]⟩
  · intro fs date tail takeoff landing n d hne hcalc hdet
    simp only [add_flight_record, if_neg hne, hcalc, hdet]

/-- C4 witness: the spec's exact-containment example - existing
10:00-12:00, new 11:00-11:30 - is rejected with the overlap message and
the store is returned unchanged. -/
theorem rejected_call_leaves_state_unchanged_witness :
    add_flight_record fsOne "2024-01-01" "N123AB" "11:00" "11:30" 1 =
      some ((false, "Overlap detected with existing flight."), fsOne) ∧
    read_flights_df fsOne "N123AB" = read_flights_df fsOne "N123AB" := by
  have h2 := rejected_call_leaves_state_unchanged.2 fsOne "2024-01-01" "N123AB"
    "11:00" "11:30" 1 _ (by decide) rfl (by decide)
  exact ⟨h2, (rejected_call_leaves_state_unchanged.1 fsOne "2024-01-01" "N123AB"
    "11:00" "11:30" 1 _ fsOne h2).2 "N123AB"⟩

/-- C1: for parsed inputs the overlap verdict is true exactly when some
stored entry's rollover-normalised interval satisfies
new.start < existing.end and new.end > existing.start (strict, so merely
touching endpoints never overlap); an overlap-free verdict lets the record
go through; and an empty ledger always yields a false verdict. -/
theorem overlap_test_characterization :
    (∀ (fs : FS) (tail date takeoff landing : String),
      read_flights_df fs tail = [] →
      detect_overlap fs tail date takeoff landing = some false) ∧
    (∀ (fs : FS) (tail date takeoff landing : String) (s0 e0 : ℕ),
      parse_datetime date takeoff = .ok s0 →
      parse_datetime date landing = .ok e0 →
      ((detect_overlap fs tail date takeoff landing = some true ↔
        ∃ r ∈ read_flights_df fs tail, ∃ es ee,
          rowInterval r = some (es, ee) ∧
          s0 < ee ∧ rolloverEnd s0 e0 > es) ∧
       (detect_overlap fs tail date takeoff landing = some false ↔
        ¬ ∃ r ∈ read_flights_df fs tail, ∃ es ee,
          rowInterval r = some (es, ee) ∧
          s0 < ee ∧ rolloverEnd s0 e0 > es))) ∧
    (∀ (fs : FS) (date tail takeoff landing : String) (n : ℤ) (d : ℚ),
      (pyNormTail tail).data ≠ [] →
      calc_duration_hours date takeoff landing = .ok d →
      detect_overlap fs (pyNormTail tail) date takeoff landing = some false →
      ∃ fs', add_flight_record fs date tail takeoff landing n =
        some ((true, "Flight added successfully."), fs')) := by
  refine ⟨detect_overlap_empty, fun fs tail date takeoff landing s0 e0 hs he => ?_,
    fun fs date tail takeoff landing n d hne hcalc hdet => ?_⟩
  · rw [detect_overlap_parsed fs tail date takeoff landing hs he]
    constructor
    · simp [List.any_eq_true, overlapHit_eq_true]
    · simp [List.any_eq_true, overlapHit_eq_true]
  · simp only [add_flight_record, if_neg hne, hcalc, hdet]
    exact ⟨_, rfl⟩

/-- C1 witness: an empty ledger yields a false verdict, and the spec's
touching-endpoint example - existing 10:00-12:00, new 12:00-13:00 on the
same date - is accepted. -/
theorem overlap_test_characterization_witness :
    detect_overlap emptyFS "N0" "2024-01-01" "10:00" "11:00" = some false ∧
    ∃ fs', add_flight_record fsOne "2024-01-01" "N123AB" "12:00" "13:00" 1 =
      some ((true, "Flight added successfully."), fs') := by
  exact ⟨overlap_test_characterization.1 emptyFS "N0" "2024-01-01" "10:00" "11:00" rfl,
    overlap_test_characterization.2.2 fsOne "2024-01-01" "N123AB" "12:00" "13:00" 1 _
      (by decide) rfl (by decide)⟩

/-- C2: the midnight rollover adds exactly 1440 minutes when the combined
end instant is strictly earlier than the start instant, leaves it
unchanged otherwise, and is applied at most once (the result is the raw
end or the raw end plus one day, never more); for 2024-01-01 with takeoff
23:30 and landing 00:15 the duration is 0.75 hours and the normalised end
falls on the day 2024-01-02. -/
theorem rollover_once_and_duration :
    (∀ s e : ℕ,
      (e < s → rolloverEnd s e = e + 1440) ∧
      (s ≤ e → rolloverEnd s e = e) ∧
      (rolloverEnd s e = e ∨ rolloverEnd s e = e + 1440)) ∧
    (∀ (date takeoff landing : String) (s e : ℕ),
      parse_datetime date takeoff = .ok s →
      parse_datetime date landing = .ok e →
      calc_duration_hours date takeoff landing =
        .ok (pyRound2 (((rolloverEnd s e - s : ℕ) : ℚ) / 60))) ∧
    calc_duration_hours "2024-01-01" "23:30" "00:15" = .ok (3 / 4) ∧
    (∃ s e : ℕ, parse_datetime "2024-01-01" "23:30" = .ok s ∧
      parse_datetime "2024-01-01" "00:15" = .ok e ∧ e < s ∧
      rolloverEnd s e / 1440 = civilDay 2024 1 2) := by
  have hp1 : parse_datetime "2024-01-01" "23:30" = .ok 1063995810 := by decide
  have hp2 : parse_datetime "2024-01-01" "00:15" = .ok 1063994415 := by decide
  have hdur : calc_duration_hours "2024-01-01" "23:30" "00:15" = .ok (3 / 4) := by
    unfold calc_duration_hours
    rw [hp1, hp2]
    norm_num [rolloverEnd, pyRound2, round2Int]
  refine ⟨fun s e => ?_, fun date takeoff landing s e hs he => ?_, hdur,
    1063995810, 1063994415, hp1, hp2, by decide, by decide⟩
  · unfold rolloverEnd
    refine ⟨fun h => if_pos h, fun h => if_neg (by omega), ?_⟩
    split
    · exact Or.inr rfl
    · exact Or.inl rfl
  · unfold calc_duration_hours
    rw [hs, he]

/-- C2 witness: the rollover fires on the 23:30 to 00:15 instants and the
duration formula is as characterised there. -/
theorem rollover_once_and_duration_witness :
    rolloverEnd 1063995810 1063994415 = 1063994415 + 1440 ∧
    calc_duration_hours "2024-01-01" "23:30" "00:15" =
      .ok (pyRound2 (((rolloverEnd 1063995810 1063994415 - 1063995810 : ℕ) : ℚ) / 60)) := by
  exact ⟨(rollover_once_and_duration.1 1063995810 1063994415).1 (by decide),
    rollover_once_and_duration.2.1 "2024-01-01" "23:30" "00:15" _ _ rfl rfl⟩

/-- C8 counterexample: `add_flight_record` accepts an event count of 0 and
stores it - the call succeeds and the stored entry's count is 0, not a
positive integer, refuting the claim for an accepted argument value. -/
theorem nonpositive_event_count_accepted :
    (c8Run.map fun p => (p.1.1, (read_flights_df p.2 "N123AB").map
      Entry.landingsThisFlight)) = some (true, [0]) := by decide

/-- C8 amended: a successful record call appends exactly one entry whose
stored event count is the integer argument itself - no positivity
validation is performed - so the stored count is at least 1 exactly when
the argument is at least 1. -/
theorem event_count_stored_verbatim :
    ∀ (fs : FS) (date tail takeoff landing : String) (n : ℤ) (m : String) (fs' : FS),
      add_flight_record fs date tail takeoff landing n = some ((true, m), fs') →
      ∃ l r, read_flights_df fs' (pyNormTail tail) = l ++ [r] ∧
        r.landingsThisFlight = n ∧ (1 ≤ n ↔ 1 ≤ r.landingsThisFlight) := by
  intro fs date tail takeoff landing n m fs' h
  obtain ⟨d, hne, hcalc, hdet, hm, hfs⟩ := add_success_elim h
  subst hfs
  rw [read_flights_write_self]
  exact ⟨_, _, rfl, rfl, Iff.rfl⟩

/-- C8 witness: a successful record with event count 1 stores count 1. -/
theorem event_count_stored_verbatim_witness :
    ∃ l r, read_flights_df c9fs1 (pyNormTail "N1") = l ++ [r] ∧
      r.landingsThisFlight = 1 ∧ ((1 : ℤ) ≤ 1 ↔ 1 ≤ r.landingsThisFlight) := by
  exact event_count_stored_verbatim emptyFS "2024-03-03" "N1" "08:00" "08:00" 1
    "Flight added successfully." c9fs1 rfl

/-- C9 counterexample: with an existing 10:00-12:00 entry, a valid
zero-width 11:00-11:00 request for the same entity is rejected as
overlapping, so a zero-duration record does not succeed for every entity
state. -/
theorem zero_width_inside_existing_rejected :
    add_flight_record fsOne "2024-01-01" "N123AB" "11:00" "11:00" 1 =
      some ((false, "Overlap detected with existing flight."), fsOne) := by
  rfl

/-- C9 amended: with takeoff equal to landing the computed duration is 0;
a successful zero-width record can immediately be repeated with the exact
same arguments, because a zero-width interval never satisfies the strict
overlap test against the identical zero-width entry just stored - but the
first call is not unconditional: a zero-width instant strictly inside an
existing interval is rejected (see the counterexample). -/
theorem zero_duration_repeat :
    (∀ (date t : String) (x : ℕ), parse_datetime date t = .ok x →
      calc_duration_hours date t t = .ok 0) ∧
    (∀ (fs : FS) (date tail t : String) (n : ℤ) (m : String) (fs1 : FS),
      add_flight_record fs date tail t t n = some ((true, m), fs1) →
      ∃ fs2, add_flight_record fs1 date tail t t n =
        some ((true, "Flight added successfully."), fs2)) := by
  constructor
  · intro date t x hx
    unfold calc_duration_hours
    rw [hx]
    simp [rolloverEnd, pyRound2_zero]
  · intro fs date tail t n m fs1 h
    obtain ⟨d, hne, hcalc, hdet, hm, hfs1⟩ := add_success_elim h
    obtain ⟨s, e, hps, hpe, hd⟩ := calc_ok_parse hcalc
    have hse : e = s := by
      rw [hps] at hpe
      exact (Except.ok.inj hpe).symm
    subst hse
    have hrows : read_flights_df fs1 (pyNormTail tail) =
        read_flights_df fs (pyNormTail tail) ++
          [⟨date, pyNormTail tail, t, t, d, n,
            pyRound2 (prev_hours (read_flights_df fs (pyNormTail tail)) + d),
            prev_landings (read_flights_df fs (pyNormTail tail)) + n⟩] := by
      rw [hfs1, read_flights_write_self]
    have hdet2 : detect_overlap fs1 (pyNormTail tail) date t t = some false := by
      rw [detect_overlap_parsed fs1 (pyNormTail tail) date t t hps hps, hrows,
        List.any_append]
      have h1 : (read_flights_df fs (pyNormTail tail)).any
          (overlapHit e (rolloverEnd e e)) = false := by
        by_cases hdf : read_flights_df fs (pyNormTail tail) = []
        · rw [hdf]
          rfl
        · have hc := detect_overlap_parsed fs (pyNormTail tail) date t t hps hps
          rw [hdet] at hc
          exact (Option.some.inj hc).symm
      have h2 : List.any [(⟨date, pyNormTail tail, t, t, d, n,
          pyRound2 (prev_hours (read_flights_df fs (pyNormTail tail)) + d),
          prev_landings (read_flights_df fs (pyNormTail tail)) + n⟩ : Entry)]
          (overlapHit e (rolloverEnd e e)) = false := by
        simp [overlapHit, rowInterval, hps, rolloverEnd]
      rw [h1, h2]
      rfl
    simp only [add_flight_record, if_neg hne, hcalc, hdet2]
    exact ⟨_, rfl⟩

/-- C9 witness: a zero-width flight parses to duration 0 and, once
recorded on a fresh store, the very same call succeeds again. -/
theorem zero_duration_repeat_witness :
    calc_duration_hours "2024-03-03" "08:00" "08:00" = .ok 0 ∧
    ∃ fs2, add_flight_record c9fs1 "2024-03-03" "N1" "08:00" "08:00" 1 =
      some ((true, "Flight added successfully."), fs2) := by
  exact ⟨zero_duration_repeat.1 "2024-03-03" "08:00" _ rfl,
    zero_duration_repeat.2 emptyFS "2024-03-03" "N1" "08:00" 1
      "Flight added successfully." c9fs1 rfl⟩

/-- C10: overlap detection compares full date-time instants, not just
same-date entries.  (A) When an existing entry's landing instant is
earlier than its takeoff (rolled past midnight), a request dated the next
calendar day whose interval starts inside the rolled-over portion is
rejected as overlapping.  (B) Symmetrically, a new overnight request is
rejected when an existing entry dated the next day starts before the new
request's rolled-over landing. -/
theorem overnight_overlap_detected :
    (∀ (fs : FS) (date tail takeoff landing : String) (n : ℤ) (d : ℚ)
        (r : Entry) (ns ne0 es ee0 : ℕ),
      (pyNormTail tail).data ≠ [] →
      calc_duration_hours date takeoff landing = .ok d →
      parse_datetime date takeoff = .ok ns →
      parse_datetime date landing = .ok ne0 →
      r ∈ read_flights_df fs (pyNormTail tail) →
      parse_datetime r.date r.takeoffTime = .ok es →
      parse_datetime r.date r.landingTime = .ok ee0 →
      ee0 < es →
      ns / 1440 = es / 1440 + 1 →
      ns ≤ ne0 →
      ns < ee0 + 1440 →
      add_flight_record fs date tail takeoff landing n =
        some ((false, "Overlap detected with existing flight."), fs)) ∧
    (∀ (fs : FS) (date tail takeoff landing : String) (n : ℤ) (d : ℚ)
        (r : Entry) (ns ne0 es ee0 : ℕ),
      (pyNormTail tail).data ≠ [] →
      calc_duration_hours date takeoff landing = .ok d →
      parse_datetime date takeoff = .ok ns →
      parse_datetime date landing = .ok ne0 →
      r ∈ read_flights_df fs (pyNormTail tail) →
      parse_datetime r.date r.takeoffTime = .ok es →
      parse_datetime r.date r.landingTime = .ok ee0 →
      ne0 < ns →
      es / 1440 = ns / 1440 + 1 →
      es ≤ ee0 →
      es < ne0 + 1440 →
      add_flight_record fs date tail takeoff landing n =
        some ((false, "Overlap detected with existing flight."), fs)) := by
  constructor
  · intro fs date tail takeoff landing n d r ns ne0 es ee0
      hne hcalc hps hpe hr hres hree hroll hday hnoroll hinside
    have hes_lt_ns : es < ns := by omega
    have hrow : rowInterval r = some (es, ee0 + 1440) := by
      unfold rowInterval
      rw [hres, hree]
      simp [rolloverEnd, if_pos hroll]
    have hhit : overlapHit ns (rolloverEnd ns ne0) r = true := by
      rw [overlapHit_eq_true]
      refine ⟨es, ee0 + 1440, hrow, hinside, ?_⟩
      have : rolloverEnd ns ne0 = ne0 := by
        unfold rolloverEnd
        rw [if_neg (by omega)]
      omega
    have hdet : detect_overlap fs (pyNormTail tail) date takeoff landing = some true := by
      rw [detect_overlap_parsed fs (pyNormTail tail) date takeoff landing hps hpe]
      rw [List.any_eq_true.mpr ⟨r, hr, hhit⟩]
    simp only [add_flight_record, if_neg hne, hcalc, hdet]
  · intro fs date tail takeoff landing n d r ns ne0 es ee0
      hne hcalc hps hpe hr hres hree hroll hday hnoroll hbefore
    have hns_lt_es : ns < es := by omega
    have hrow : rowInterval r = some (es, ee0) := by
      unfold rowInterval
      rw [hres, hree]
      simp [rolloverEnd, if_neg (by omega : ¬ ee0 < es)]
    have hhit : overlapHit ns (rolloverEnd ns ne0) r = true := by
      rw [overlapHit_eq_true]
      refine ⟨es, ee0, hrow, by omega, ?_⟩
      have : rolloverEnd ns ne0 = ne0 + 1440 := by
        unfold rolloverEnd
        rw [if_pos hroll]
      omega
    have hdet : detect_overlap fs (pyNormTail tail) date takeoff landing = some true := by
      rw [detect_overlap_parsed fs (pyNormTail tail) date takeoff landing hps hpe]
      rw [List.any_eq_true.mpr ⟨r, hr, hhit⟩]
    simp only [add_flight_record, if_neg hne, hcalc, hdet]

/-- C3: on every store produced from the empty store by record calls that
all succeeded, each ledger satisfies the chain invariant - every entry
stores `round(previous_duration + duration, 2)` hours and
`previous_count + event_count` landings, the previous totals being those
of the positional predecessor (zero at the start) - and the positional
last entry's cumulative count equals the sum of the stored counts exactly
while its cumulative duration equals `round(sum of stored durations, 2)`
exactly, hence within the 0.01 tolerance. -/
theorem cumulative_totals_invariant :
    ∀ (reqs : List Request) (flags : List Bool) (fsF : FS),
      runRecords emptyFS reqs = some (flags, fsF) →
      (∀ b ∈ flags, b = true) →
      ∀ t, chainB 0 0 (read_flights_df fsF t) = true ∧
        ∀ e, (read_flights_df fsF t).getLast? = some e →
          e.totalLandingsAfter =
            ((read_flights_df fsF t).map Entry.landingsThisFlight).sum ∧
          e.totalHoursAfter =
            pyRound2 (((read_flights_df fsF t).map Entry.durationHours).sum) ∧
          |e.totalHoursAfter -
            ((read_flights_df fsF t).map Entry.durationHours).sum| ≤ 1 / 100 := by
  intro reqs flags fsF hrun hall t
  have hinv := runRecords_inv hrun invFS_empty
  have hok : ledgerOK (read_flights_df fsF t) := hinv (pyNormTail t)
  obtain ⟨hchain, hcent⟩ := hok
  refine ⟨hchain, fun e he => ?_⟩
  have hsums := chainB_sums hchain cent_zero hcent
  have hlastH : lastHours 0 (read_flights_df fsF t) = e.totalHoursAfter := by
    cases hl : read_flights_df fsF t with
    | nil => rw [hl] at he; exact Option.noConfusion he
    | cons a u =>
      rw [hl] at he
      rw [show lastHours 0 (a :: u) = prev_hours (a :: u) from (prev_hours_eq _).symm]
      simp [prev_hours, he]
  have hlastL : lastLandings 0 (read_flights_df fsF t) = e.totalLandingsAfter := by
    cases hl : read_flights_df fsF t with
    | nil => rw [hl] at he; exact Option.noConfusion he
    | cons a u =>
      rw [hl] at he
      rw [show lastLandings 0 (a :: u) = prev_landings (a :: u) from
        (prev_landings_eq _).symm]
      simp [prev_landings, he]
  have hsum_cent : cent (((read_flights_df fsF t).map Entry.durationHours).sum) :=
    cent_list_sum hcent
  refine ⟨?_, ?_, ?_⟩
  · rw [← hlastL, hsums.2.1, zero_add]
  · rw [← hlastH, hsums.1, pyRound2_cent_eq hsum_cent, zero_add]
  · rw [← hlastH, hsums.1, zero_add, sub_self, abs_zero]
    norm_num

/-- C3 witness: after two successful record calls the ledger of `N123AB`
satisfies the chain invariant. -/
theorem cumulative_totals_invariant_witness :
    chainB 0 0 (read_flights_df c3fs "N123AB") = true := by
  exact (cumulative_totals_invariant c3reqs [true, true] c3fs rfl (by decide)
    "N123AB").1

/-- C6 counterexample: "2024-02-30" with "10:00" matches the spec's fixed
format (4-digit year, 2-digit month and day in range, valid HH:MM), yet
parsing fails - the day is out of range for February - refuting "for
every string matching it, parsing succeeds". -/
theorem fixed_format_feb30_fails :
    specFixedFormat "2024-02-30" "10:00" = true ∧
    isOkB (parse_datetime "2024-02-30" "10:00") = false := by decide

/-- C6 amended: a fixed-format input parses successfully iff its date is
calendar-valid (year at least 1 and day within the month's length); the
parser is also more lenient than the fixed format (single-digit fields
such as "2024-1-1" with "9:05" parse); and a parse failure makes the
record call return `(false, "Date/time parse error: <detail>")` with the
store unchanged. -/
theorem parse_success_characterization :
    (∀ (date time : String) (y mo da h mi : ℕ),
      specFieldsL date.data time.data = some (y, mo, da, h, mi) →
      (isOkB (parse_datetime date time) = true ↔ (1 ≤ y ∧ da ≤ daysInMonth y mo))) ∧
    isOkB (parse_datetime "2024-1-1" "9:05") = true ∧
    (∀ (fs : FS) (date tail takeoff landing : String) (n : ℤ) (e : String),
      (pyNormTail tail).data ≠ [] →
      calc_duration_hours date takeoff landing = .error e →
      add_flight_record fs date tail takeoff landing n =
        some ((false, "Date/time parse error: " ++ e), fs)) := by
  refine ⟨?_, by decide, ?_⟩
  · intro date time y mo da h mi hspec
    obtain ⟨dl⟩ := date
    obtain ⟨tl⟩ := time
    simp only [String.data] at hspec ⊢
    unfold specFieldsL at hspec
    split at hspec
    · next y1 y2 y3 y4 s1 m1 m2 s2 d1 d2 t1 t2 s3 u1 u2 =>
      split at hspec
      · next hcond =>
        obtain ⟨hs1, hs2, hs3, hy1, hy2, hy3, hy4, hm1, hm2, hd1, hd2, ht1, ht2,
          hu1, hu2, hmo1, hmo2, hda1, hda2, hh23, hn59⟩ := hcond
        subst hs1
        subst hs2
        subst hs3
        simp only [Option.some.injEq, Prod.mk.injEq] at hspec
        obtain ⟨hy, hmo, hda, hh, hmi⟩ := hspec
        subst hy
        subst hmo
        subst hda
        subst hh
        subst hmi
        have hstripd : pyStripL [y1, y2, y3, y4, '-', m1, m2, '-', d1, d2] =
            [y1, y2, y3, y4, '-', m1, m2, '-', d1, d2] := by
          refine pyStripL_eq_self ?_
          intro c hc
          simp only [List.mem_cons, List.not_mem_nil, or_false] at hc
          rcases hc with rfl | rfl | rfl | rfl | rfl | rfl | rfl | rfl | rfl | rfl
          · exact isDig_not_space hy1
          · exact isDig_not_space hy2
          · exact isDig_not_space hy3
          · exact isDig_not_space hy4
          · decide
          · exact isDig_not_space hm1
          · exact isDig_not_space hm2
          · decide
          · exact isDig_not_space hd1
          · exact isDig_not_space hd2
        have hstript : pyStripL [t1, t2, ':', u1, u2] = [t1, t2, ':', u1, u2] := by
          refine pyStripL_eq_self ?_
          intro c hc
          simp only [List.mem_cons, List.not_mem_nil, or_false] at hc
          rcases hc with rfl | rfl | rfl | rfl | rfl
          · exact isDig_not_space ht1
          · exact isDig_not_space ht2
          · decide
          · exact isDig_not_space hu1
          · exact isDig_not_space hu2
        have hpc : parseCombinedL
            [y1, y2, y3, y4, '-', m1, m2, '-', d1, d2, ' ', t1, t2, ':', u1, u2] =
            some (1000 * digitVal y1 + 100 * digitVal y2 + 10 * digitVal y3 +
                digitVal y4,
              10 * digitVal m1 + digitVal m2, 10 * digitVal d1 + digitVal d2,
              10 * digitVal t1 + digitVal t2, 10 * digitVal u1 + digitVal u2) := by
          simp only [parseCombinedL, readYear_digits hy1 hy2 hy3 hy4, expectChar_eq,
            readField_two hm1 hm2 hmo1 hmo2, readField_two hd1 hd2 hda1 hda2,
            readField_two ht1 ht2 (Nat.zero_le _) hh23,
            readField_two hu1 hu2 (Nat.zero_le _) hn59, List.isEmpty_nil, if_true]
        unfold parse_datetime
        simp only [String.data]
        rw [hstripd, hstript]
        simp only [List.cons_append, List.nil_append]
        rw [hpc]
        dsimp only
        by_cases hy0 : 1000 * digitVal y1 + 100 * digitVal y2 + 10 * digitVal y3 +
            digitVal y4 = 0
        · rw [if_pos hy0]
          simp [isOkB]
          omega
        · rw [if_neg hy0]
          by_cases hdim : daysInMonth
              (1000 * digitVal y1 + 100 * digitVal y2 + 10 * digitVal y3 + digitVal y4)
              (10 * digitVal m1 + digitVal m2) < 10 * digitVal d1 + digitVal d2
          · rw [if_pos hdim]
            simp [isOkB]
            omega
          · rw [if_neg hdim]
            simp [isOkB]
            omega
      · exact Option.noConfusion hspec
    · exact Option.noConfusion hspec
  · intro fs date tail takeoff landing n e hne hcalc
    simp only [add_flight_record, if_neg hne, hcalc]

/-- C6 witness: "2024-05-07" "10:30" is fixed-format and calendar-valid,
so it parses; "2024-13-01" fails the pattern and the record call returns
the parse-error message with the store untouched. -/
theorem parse_success_characterization_witness :
    isOkB (parse_datetime "2024-05-07" "10:30") = true ∧
    add_flight_record emptyFS "2024-13-01" "N123AB" "10:00" "11:00" 1 =
      some ((false, "Date/time parse error: " ++
        "time data 2024-13-01 10:00 does not match format %Y-%m-%d %H:%M"),
        emptyFS) := by
  refine ⟨(parse_success_characterization.1 "2024-05-07" "10:30" 2024 5 7 10 30
    (by decide)).mpr (by decide), ?_⟩
  exact parse_success_characterization.2.2 emptyFS "2024-13-01" "N123AB" "10:00"
    "11:00" 1 _ (by decide) (by decide)

/-- C7 counterexample: a record call with an empty takeoff time is not
rejected by a pre-parse validation - parsing is attempted and the call
fails with the parse-error message, not with "Tail number required.". -/
theorem empty_time_field_is_parse_error :
    ((add_flight_record emptyFS "2024-01-01" "N123AB" "" "10:00" 1).map
      Prod.fst) = some (false,
        "Date/time parse error: " ++
        "time data 2024-01-01  does not match format %Y-%m-%d %H:%M") := by decide

/-- C7 amended: only the entity identifier is validated before parsing:
an empty (after trim) tail yields `(false, "Tail number required.")` with
no state change and no parsing attempted; an empty date or time field
always fails in the parse step instead, and any parse failure is rejected
with the parse-error message, again with no state change. -/
theorem validation_only_tail_before_parse :
    (∀ (fs : FS) (date tail takeoff landing : String) (n : ℤ),
      (pyNormTail tail).data = [] →
      add_flight_record fs date tail takeoff landing n =
        some ((false, "Tail number required."), fs)) ∧
    (∀ (fs : FS) (date tail takeoff landing : String) (n : ℤ) (e : String),
      (pyNormTail tail).data ≠ [] →
      calc_duration_hours date takeoff landing = .error e →
      add_flight_record fs date tail takeoff landing n =
        some ((false, "Date/time parse error: " ++ e), fs)) ∧
    (∀ (date takeoff landing : String),
      pyStripL takeoff.data = [] ∨ pyStripL landing.data = [] ∨
        pyStripL date.data = [] →
      ∃ e, calc_duration_hours date takeoff landing = .error e) := by
  refine ⟨?_, ?_, ?_⟩
  · intro fs date tail takeoff landing n hempty
    simp only [add_flight_record, if_pos hempty]
  · intro fs date tail takeoff landing n e hne hcalc
    simp only [add_flight_record, if_neg hne, hcalc]
  · intro date takeoff landing hor
    rcases hor with h | h | h
    · obtain ⟨e, he⟩ := isOkB_false_iff.mp (parse_datetime_empty_time date takeoff h)
      exact ⟨e, by unfold calc_duration_hours; simp only [he]⟩
    · cases hp : parse_datetime date takeoff with
      | error e1 => exact ⟨e1, by unfold calc_duration_hours; simp only [hp]⟩
      | ok t1 =>
        obtain ⟨e, he⟩ := isOkB_false_iff.mp (parse_datetime_empty_time date landing h)
        exact ⟨e, by unfold calc_duration_hours; simp only [hp, he]⟩
    · obtain ⟨e, he⟩ := isOkB_false_iff.mp (parse_datetime_empty_date date takeoff h)
      exact ⟨e, by unfold calc_duration_hours; simp only [he]⟩

/-- C7 witness: an all-whitespace tail is rejected with the validation
message before parsing, and an empty landing time makes the duration
parse fail. -/
theorem validation_only_tail_before_parse_witness :
    add_flight_record emptyFS "2024-01-01" "  " "10:00" "11:00" 7 =
      some ((false, "Tail number required."), emptyFS) ∧
    ∃ e, calc_duration_hours "2024-01-01" "10:00" "" = .error e := by
  exact ⟨validation_only_tail_before_parse.1 emptyFS "2024-01-01" "  " "10:00"
      "11:00" 7 (by decide),
    validation_only_tail_before_parse.2.2 "2024-01-01" "10:00" ""
      (Or.inr (Or.inl (by decide)))⟩

/-- C10 witness: the overnight 2024-01-01 23:30-00:30 entry makes the
2024-01-02 00:00-01:00 request overlap, and symmetrically an existing
2024-01-02 00:00-01:00 entry makes a new overnight 23:30-00:30 request
dated 2024-01-01 overlap. -/
theorem overnight_overlap_detected_witness :
    add_flight_record fsNight "2024-01-02" "N9" "00:00" "01:00" 1 =
      some ((false, "Overlap detected with existing flight."), fsNight) ∧
    add_flight_record fsMorning "2024-01-01" "N9" "23:30" "00:30" 1 =
      some ((false, "Overlap detected with existing flight."), fsMorning) := by
  constructor
  · exact overnight_overlap_detected.1 fsNight "2024-01-02" "N9" "00:00" "01:00" 1 _
      ⟨"2024-01-01", "N9", "23:30", "00:30", 1, 1, 1, 1⟩ 1063995840 1063995900
      1063995810 1063994430 (by decide) rfl (by decide) (by decide)
      (by decide) (by decide) (by decide) (by decide) (by decide) (by decide) (by decide)
  · exact overnight_overlap_detected.2 fsMorning "2024-01-01" "N9" "23:30" "00:30" 1 _
      ⟨"2024-01-02", "N9", "00:00", "01:00", 1, 1, 1, 1⟩ 1063995810 1063994430
      1063995840 1063995900 (by decide) rfl (by decide) (by decide)
      (by decide) (by decide) (by decide) (by decide) (by decide) (by decide) (by decide)

end FlightLogger
